import Mathlib

/-!
Verification of the console-aware dual-encoding output path of the
`print_bytes` crate.

The development shallowly embeds the live modules of the crate:

* `src/lib.rs`   — `write_lossy`, the dispatch policy, and the
  `ToConsole`/`WriteLossy` plumbing (in particular the `Vec<u8>` instance);
* `src/bytes.rs` — the `ToBytes` trait and its implementations for `[u8]`
  and (on Windows) `OsStr`;
* `src/console.rs` — `Console::from_handle` and `Console::write_wide_all`.

Bytes (`u8`) and wide code units (`u16`) are modelled as `Nat`; byte strings
and wide strings as `List Nat`.  Fallible OS calls are modelled by explicit
result values, and the console write loop by a fuel-indexed state-passing
function (`none` meaning the fuel ran out before the loop finished).
-/

/-! ### The standard library's lossy UTF-8 decoding

`write_lossy` calls `String::from_utf8_lossy`, and `ToBytes for OsStr`
calls `OsStr::to_string_lossy` (on Windows a lossy UTF-16 decode).  These
standard-library collaborators are embedded here at the byte level:
every maximal ill-formed subsequence is replaced by one replacement
character U+FFFD, whose UTF-8 encoding is the byte triple EF BF BD.
-/

/-- Is `b` a UTF-8 continuation byte (`0x80 ..= 0xBF`)? -/
def is_cont (b : Nat) : Bool :=
  0x80 ≤ b && b ≤ 0xBF

/-- Allowed second byte of a multi-byte UTF-8 sequence with lead byte `b0`
(the lead bytes `0xE0`, `0xED`, `0xF0` and `0xF4` restrict it beyond the
plain continuation range). -/
def valid_second (b0 b1 : Nat) : Bool :=
  if b0 = 0xE0 then 0xA0 ≤ b1 && b1 ≤ 0xBF
  else if b0 = 0xED then 0x80 ≤ b1 && b1 ≤ 0x9F
  else if b0 = 0xF0 then 0x90 ≤ b1 && b1 ≤ 0xBF
  else if b0 = 0xF4 then 0x80 ≤ b1 && b1 ≤ 0x8F
  else is_cont b1

/-- Byte-level model of `String::from_utf8_lossy` followed by `as_bytes`:
decode `b` as UTF-8; every well-formed scalar is copied verbatim and every
maximal ill-formed subsequence (of one, two or three bytes, following the
standard substitution of maximal subparts) becomes the replacement
character bytes `EF BF BD`. -/
def from_utf8_lossy : List Nat → List Nat
  | [] => []
  | b0 :: rest =>
    if b0 ≤ 0x7F then
      b0 :: from_utf8_lossy rest
    else if b0 ≤ 0xC1 then
      0xEF :: 0xBF :: 0xBD :: from_utf8_lossy rest
    else if b0 ≤ 0xDF then
      match rest with
      | [] => [0xEF, 0xBF, 0xBD]
      | b1 :: rest1 =>
        if is_cont b1 then b0 :: b1 :: from_utf8_lossy rest1
        else 0xEF :: 0xBF :: 0xBD :: from_utf8_lossy (b1 :: rest1)
    else if b0 ≤ 0xEF then
      match rest with
      | [] => [0xEF, 0xBF, 0xBD]
      | b1 :: rest1 =>
        if valid_second b0 b1 then
          match rest1 with
          | [] => [0xEF, 0xBF, 0xBD]
          | b2 :: rest2 =>
            if is_cont b2 then b0 :: b1 :: b2 :: from_utf8_lossy rest2
            else 0xEF :: 0xBF :: 0xBD :: from_utf8_lossy (b2 :: rest2)
        else 0xEF :: 0xBF :: 0xBD :: from_utf8_lossy (b1 :: rest1)
    else if b0 ≤ 0xF4 then
      match rest with
      | [] => [0xEF, 0xBF, 0xBD]
      | b1 :: rest1 =>
        if valid_second b0 b1 then
          match rest1 with
          | [] => [0xEF, 0xBF, 0xBD]
          | b2 :: rest2 =>
            if is_cont b2 then
              match rest2 with
              | [] => [0xEF, 0xBF, 0xBD]
              | b3 :: rest3 =>
                if is_cont b3 then b0 :: b1 :: b2 :: b3 :: from_utf8_lossy rest3
                else 0xEF :: 0xBF :: 0xBD :: from_utf8_lossy (b3 :: rest3)
            else 0xEF :: 0xBF :: 0xBD :: from_utf8_lossy (b2 :: rest2)
        else 0xEF :: 0xBF :: 0xBD :: from_utf8_lossy (b1 :: rest1)
    else
      0xEF :: 0xBF :: 0xBD :: from_utf8_lossy rest

/-- Byte-level model of UTF-8 validity (`str::from_utf8(b).is_ok()`),
with the branch structure of `from_utf8_lossy` so that the two functions
can be related case by case. -/
def is_utf8 : List Nat → Bool
  | [] => true
  | b0 :: rest =>
    if b0 ≤ 0x7F then
      is_utf8 rest
    else if b0 ≤ 0xC1 then
      false
    else if b0 ≤ 0xDF then
      match rest with
      | [] => false
      | b1 :: rest1 => is_cont b1 && is_utf8 rest1
    else if b0 ≤ 0xEF then
      match rest with
      | [] => false
      | b1 :: rest1 =>
        if valid_second b0 b1 then
          match rest1 with
          | [] => false
          | b2 :: rest2 => is_cont b2 && is_utf8 rest2
        else false
    else if b0 ≤ 0xF4 then
      match rest with
      | [] => false
      | b1 :: rest1 =>
        if valid_second b0 b1 then
          match rest1 with
          | [] => false
          | b2 :: rest2 =>
            if is_cont b2 then
              match rest2 with
              | [] => false
              | b3 :: rest3 => is_cont b3 && is_utf8 rest3
            else false
        else false
    else
      false

/-- UTF-8 encoding of the Unicode scalar value `c`. -/
def utf8_encode (c : Nat) : List Nat :=
  if c < 0x80 then [c]
  else if c < 0x800 then [0xC0 + c / 64, 0x80 + c % 64]
  else if c < 0x10000 then
    [0xE0 + c / 4096, 0x80 + c / 64 % 64, 0x80 + c % 64]
  else
    [0xF0 + c / 262144, 0x80 + c / 4096 % 64, 0x80 + c / 64 % 64, 0x80 + c % 64]

/-- Byte-level model of the lossy UTF-16 decode used by
`OsStr::to_string_lossy` on Windows (the semantics of
`String::from_utf16_lossy` on the `encode_wide` code units): well-formed
code units and surrogate pairs are re-encoded as UTF-8, every unpaired
surrogate becomes the replacement character bytes `EF BF BD`. -/
def from_utf16_lossy : List Nat → List Nat
  | [] => []
  | u :: rest =>
    if u < 0xD800 || 0xDFFF < u then
      utf8_encode u ++ from_utf16_lossy rest
    else if u ≤ 0xDBFF then
      match rest with
      | [] => [0xEF, 0xBF, 0xBD]
      | v :: rest1 =>
        if 0xDC00 ≤ v && v ≤ 0xDFFF then
          utf8_encode (0x10000 + (u - 0xD800) * 0x400 + (v - 0xDC00)) ++
            from_utf16_lossy rest1
        else 0xEF :: 0xBF :: 0xBD :: from_utf16_lossy (v :: rest1)
    else
      0xEF :: 0xBF :: 0xBD :: from_utf16_lossy rest

/-! ### The data model of `src/bytes.rs` -/

/-- `ByteStrInner` from `src/bytes.rs`: either a borrowed raw byte slice or
(on Windows) an owned-or-borrowed `str`, modelled by its UTF-8 bytes. -/
inductive ByteStrInner
  | bytes (string : List Nat)
  | str (string : List Nat)
deriving DecidableEq

/-- A value of the `ToBytes` trait, modelled by the results of its two
methods: `to_bytes` (always present) and `to_wide` (a wide code-unit view,
present only for some types on Windows).  This is the `OutputValue` of the
specification. -/
structure OutputValue where
  to_bytes : ByteStrInner
  to_wide : Option (List Nat)
deriving DecidableEq

/-- `impl ToBytes for [u8]` (`src/bytes.rs`): the byte view is the raw
bytes and `to_wide` returns `None`. -/
def byteSliceValue (b : List Nat) : OutputValue :=
  { to_bytes := ByteStrInner.bytes b, to_wide := none }

/-- `impl ToBytes for OsStr` on Windows (`src/bytes.rs`): the value is an
OS string with UTF-16 code units `w` (`encode_wide`); `to_bytes` is
`ByteStr(ByteStrInner::Str(self.to_string_lossy()))` and `to_wide` is
`Some(WideStr(self.encode_wide().collect()))`. -/
def osStrWinValue (w : List Nat) : OutputValue :=
  { to_bytes := ByteStrInner.str (from_utf16_lossy w), to_wide := some w }

/-- `impl ToConsole for Vec<u8>` (`src/lib.rs`, mirrored by the
`impl_to_console!` instance in `src/writer.rs`): the console probe of an
in-memory byte buffer is hardwired to `None` for every capability type. -/
def vec_u8_to_console (κ : Type) : Option κ :=
  none

/-- The exact (non-lossy) byte view written by the byte path of
`write_lossy`: the raw bytes for `ByteStrInner::Bytes`, the `str` bytes
for `ByteStrInner::Str`. -/
def exact_bytes (value : OutputValue) : List Nat :=
  match value.to_bytes with
  | ByteStrInner.bytes string => string
  | ByteStrInner.str string => string

/-! ### The dispatch policy `write_lossy` of `src/lib.rs`

The writer is represented by its console probe result
(`writer.__to_console()`, an optional capability of abstract type `κ`)
together with the two write entry points it offers: the console writer
`console_write` (`Console::write_wide_all`) and the ordinary byte-write
entry point `write_all` (`Write::write_all`), both returning an outcome of
abstract type `R`.
-/

/-- `write_lossy` from `src/lib.rs`.  If a console capability was obtained
and the value has a wide view, it returns the console writer's outcome on
that wide view; otherwise it takes the byte view, where the `lossy` flag
(set exactly when a console capability was obtained but no wide view
exists) selects `String::from_utf8_lossy` on a `Bytes` view. -/
def write_lossy {κ R : Type} (to_console : Option κ)
    (console_write : κ → List Nat → R) (write_all : List Nat → R)
    (value : OutputValue) : R :=
  let lossy := to_console.isSome && value.to_wide.isNone
  match to_console, value.to_wide with
  | some console, some string => console_write console string
  | _, _ =>
    match value.to_bytes with
    | ByteStrInner.bytes string =>
      write_all (if lossy then from_utf8_lossy string else string)
    | ByteStrInner.str string => write_all string

/-! ### The console writer of `src/console.rs` -/

/-- The classification of an `io::Error` as far as the console writer is
concerned: the `Interrupted` kind, the `WriteZero` kind (used for the
zero-progress error the loop itself constructs), and any other OS error
identified by its code. -/
inductive ErrorKind
  | interrupted
  | writeZero
  | other (code : Nat)
deriving DecidableEq

/-- `Console::write_wide_all` from `src/console.rs`, over an abstract
write primitive `prim` modelling `Console::write_wide` (one `WriteConsoleW`
call): `prim` receives the unwritten suffix and the current device state
and reports either the number of code units consumed or an error.  The
loop repeats until the suffix is empty: a reported count of zero on a
non-empty suffix terminates it with a `WriteZero` error, an `Interrupted`
error retries the same suffix, any other error is returned as is.  `fuel`
bounds the number of iterations; `none` means the fuel ran out first. -/
def write_wide_all {σ : Type} (prim : List Nat → σ → Except ErrorKind Nat × σ)
    (fuel : Nat) (s : σ) (string : List Nat) :
    Option (Except ErrorKind Unit × σ) :=
  match string with
  | [] => some (Except.ok (), s)
  | _ :: _ =>
    match fuel with
    | 0 => none
    | fuel + 1 =>
      match prim string s with
      | (Except.ok written_length, s2) =>
        if written_length = 0 then
          some (Except.error ErrorKind.writeZero, s2)
        else
          write_wide_all prim fuel s2 (string.drop written_length)
      | (Except.error error, s2) =>
        if error = ErrorKind.interrupted then
          write_wide_all prim fuel s2 string
        else
          some (Except.error error, s2)

/-- A mock write primitive that always succeeds, built from a consumption
function `f` that returns how many units of the passed suffix are
consumed.  The state also logs the units actually transferred (the
consumed prefix of each passed suffix), so that end-to-end transfer can be
stated. -/
def consumingPrim {σ : Type} (f : List Nat → σ → Nat × σ)
    (string : List Nat) (st : σ × List Nat) :
    Except ErrorKind Nat × (σ × List Nat) :=
  (Except.ok (f string st.1).1,
    ((f string st.1).2, st.2 ++ string.take (f string st.1).1))

/-- A mock write primitive that fails with `Interrupted` on its first call
and from then on succeeds, consuming the whole suffix and logging it. -/
def interruptOncePrim (string : List Nat) (st : Bool × List Nat) :
    Except ErrorKind Nat × (Bool × List Nat) :=
  if st.1 then (Except.ok string.length, (st.1, st.2 ++ string))
  else (Except.error ErrorKind.interrupted, (true, st.2))

/-- A mock write primitive that always fails with OS error code 5 and
never transfers anything. -/
def alwaysErrPrim (_string : List Nat) (log : List Nat) :
    Except ErrorKind Nat × List Nat :=
  (Except.error (ErrorKind.other 5), log)

/-- A mock write primitive that consumes (and logs) two units on its first
call and fails with OS error code 5 on every later call. -/
def consumeTwoThenErrPrim (string : List Nat) (st : Nat × List Nat) :
    Except ErrorKind Nat × (Nat × List Nat) :=
  if st.1 = 0 then (Except.ok 2, (1, st.2 ++ string.take 2))
  else (Except.error (ErrorKind.other 5), (st.1 + 1, st.2))

/-! ### Console detection, `src/console.rs` -/

/-- `INVALID_HANDLE_VALUE` of the Windows API (`HANDLE` is a signed
pointer-sized integer and the invalid value is `-1`). -/
def INVALID_HANDLE_VALUE : Int :=
  -1

/-- `Console::from_handle` from `src/console.rs`, over an abstract OS
query `get_console_mode` modelling `GetConsoleMode` (returning the mode on
success and `none` on failure): a null or invalid raw handle is rejected
before the query is issued; otherwise success of the query is the sole
signal of consoleness and the capability wraps the handle. -/
def from_handle (get_console_mode : Int → Option Nat) (raw_handle : Int) :
    Option Int :=
  if raw_handle = 0 || raw_handle = INVALID_HANDLE_VALUE then none
  else
    match get_console_mode raw_handle with
    | some _ => some raw_handle
    | none => none

/-! ### Helper lemmas -/

/-- The lossy UTF-8 repair is the identity exactly on valid UTF-8 input:
`from_utf8_lossy b` differs from `b` if and only if `b` is not valid
UTF-8. -/
theorem from_utf8_lossy_eq_self_iff (b : List Nat) :
    from_utf8_lossy b = b ↔ is_utf8 b = true := by
  induction b using from_utf8_lossy.induct with
  | case1 =>
    simp [from_utf8_lossy, is_utf8]
  | case2 b0 rest h1 ih =>
    rw [from_utf8_lossy.eq_def, is_utf8.eq_def]
    simpa [h1] using ih
  | case3 b0 rest h1 h2 ih =>
    rw [from_utf8_lossy.eq_def, is_utf8.eq_def]
    simp [h1, h2]
    rintro e -
    omega
  | case4 b0 h1 h2 h3 =>
    rw [from_utf8_lossy.eq_def, is_utf8.eq_def]
    simp [h1, h2, h3]
  | case5 b0 h1 h2 h3 b1 rest1 hc ih =>
    rw [from_utf8_lossy.eq_def, is_utf8.eq_def]
    simpa [h1, h2, h3, hc] using ih
  | case6 b0 h1 h2 h3 b1 rest1 hc ih =>
    rw [from_utf8_lossy.eq_def, is_utf8.eq_def]
    simp [h1, h2, h3, hc]
    rintro e -
    omega
  | case7 b0 h1 h2 h3 h4 =>
    rw [from_utf8_lossy.eq_def, is_utf8.eq_def]
    simp [h1, h2, h3, h4]
  | case8 b0 h1 h2 h3 h4 b1 hv =>
    rw [from_utf8_lossy.eq_def, is_utf8.eq_def]
    simp [h1, h2, h3, h4, hv]
  | case9 b0 h1 h2 h3 h4 b1 hv b2 rest1 hc ih =>
    rw [from_utf8_lossy.eq_def, is_utf8.eq_def]
    simpa [h1, h2, h3, h4, hv, hc] using ih
  | case10 b0 h1 h2 h3 h4 b1 hv b2 rest1 hc ih =>
    rw [from_utf8_lossy.eq_def, is_utf8.eq_def]
    simp [h1, h2, h3, h4, hv, hc]
    rintro - - e -
    exact hc (e ▸ (by decide))
  | case11 b0 h1 h2 h3 h4 b1 rest1 hv ih =>
    rw [from_utf8_lossy.eq_def, is_utf8.eq_def]
    simp [h1, h2, h3, h4, hv]
    rintro e1 e2 -
    refine hv ?_
    rw [← e1, ← e2]
    decide
  | case12 b0 h1 h2 h3 h4 h5 =>
    rw [from_utf8_lossy.eq_def, is_utf8.eq_def]
    simp [h1, h2, h3, h4, h5]
  | case13 b0 h1 h2 h3 h4 h5 b1 hv =>
    rw [from_utf8_lossy.eq_def, is_utf8.eq_def]
    simp [h1, h2, h3, h4, h5, hv]
  | case14 b0 h1 h2 h3 h4 h5 b1 hv b2 hc =>
    rw [from_utf8_lossy.eq_def, is_utf8.eq_def]
    simp [h1, h2, h3, h4, h5, hv, hc]
    rintro e - -
    omega
  | case15 b0 h1 h2 h3 h4 h5 b1 hv b2 hc b3 rest1 hc3 ih =>
    rw [from_utf8_lossy.eq_def, is_utf8.eq_def]
    simpa [h1, h2, h3, h4, h5, hv, hc, hc3] using ih
  | case16 b0 h1 h2 h3 h4 h5 b1 hv b2 hc b3 rest1 hc3 ih =>
    rw [from_utf8_lossy.eq_def, is_utf8.eq_def]
    simp [h1, h2, h3, h4, h5, hv, hc, hc3]
    rintro e - - -
    omega
  | case17 b0 h1 h2 h3 h4 h5 b1 hv b2 rest1 hc ih =>
    rw [from_utf8_lossy.eq_def, is_utf8.eq_def]
    simp [h1, h2, h3, h4, h5, hv, hc]
    rintro e - -
    omega
  | case18 b0 h1 h2 h3 h4 h5 b1 rest1 hv ih =>
    rw [from_utf8_lossy.eq_def, is_utf8.eq_def]
    simp [h1, h2, h3, h4, h5, hv]
    rintro e - -
    omega
  | case19 b0 rest h1 h2 h3 h4 h5 ih =>
    rw [from_utf8_lossy.eq_def, is_utf8.eq_def]
    simp [h1, h2, h3, h4, h5]
    rintro e -
    omega

/-- On an empty suffix the console write loop succeeds without calling the
primitive, for any fuel. -/
theorem write_wide_all_nil {σ : Type}
    (prim : List Nat → σ → Except ErrorKind Nat × σ) (fuel : Nat) (s : σ) :
    write_wide_all prim fuel s [] = some (Except.ok (), s) := by
  rw [write_wide_all.eq_def]

/-- One iteration of the console write loop on a successful primitive call
that consumed `n ≠ 0` units: the cursor advances by exactly `n`. -/
theorem write_wide_all_ok_step {σ : Type}
    (prim : List Nat → σ → Except ErrorKind Nat × σ) (fuel : Nat) (s s2 : σ)
    (string : List Nat) (n : Nat) (hne : string ≠ [])
    (h : prim string s = (Except.ok n, s2)) (hn : n ≠ 0) :
    write_wide_all prim (fuel + 1) s string =
      write_wide_all prim fuel s2 (string.drop n) := by
  obtain ⟨a, t, rfl⟩ : ∃ a t, string = a :: t := by
    cases string with
    | nil => exact absurd rfl hne
    | cons a t => exact ⟨a, t, rfl⟩
  rw [write_wide_all.eq_def]
  simp [h, hn]

/-- One iteration of the console write loop on a successful primitive call
that consumed zero units of a non-empty suffix: the loop stops with the
`WriteZero` error it constructs itself. -/
theorem write_wide_all_zero_step {σ : Type}
    (prim : List Nat → σ → Except ErrorKind Nat × σ) (fuel : Nat) (s s2 : σ)
    (string : List Nat) (hne : string ≠ [])
    (h : prim string s = (Except.ok 0, s2)) :
    write_wide_all prim (fuel + 1) s string =
      some (Except.error ErrorKind.writeZero, s2) := by
  obtain ⟨a, t, rfl⟩ : ∃ a t, string = a :: t := by
    cases string with
    | nil => exact absurd rfl hne
    | cons a t => exact ⟨a, t, rfl⟩
  rw [write_wide_all.eq_def]
  simp [h]

/-- One iteration of the console write loop on an `Interrupted` primitive
failure: the loop retries the same unwritten suffix. -/
theorem write_wide_all_interrupted_step {σ : Type}
    (prim : List Nat → σ → Except ErrorKind Nat × σ) (fuel : Nat) (s s2 : σ)
    (string : List Nat) (hne : string ≠ [])
    (h : prim string s = (Except.error ErrorKind.interrupted, s2)) :
    write_wide_all prim (fuel + 1) s string =
      write_wide_all prim fuel s2 string := by
  obtain ⟨a, t, rfl⟩ : ∃ a t, string = a :: t := by
    cases string with
    | nil => exact absurd rfl hne
    | cons a t => exact ⟨a, t, rfl⟩
  rw [write_wide_all.eq_def]
  simp [h]

/-- One iteration of the console write loop on a primitive failure other
than `Interrupted`: the loop stops and returns that error. -/
theorem write_wide_all_error_step {σ : Type}
    (prim : List Nat → σ → Except ErrorKind Nat × σ) (fuel : Nat) (s s2 : σ)
    (string : List Nat) (error : ErrorKind) (hne : string ≠ [])
    (h : prim string s = (Except.error error, s2))
    (he : error ≠ ErrorKind.interrupted) :
    write_wide_all prim (fuel + 1) s string =
      some (Except.error error, s2) := by
  obtain ⟨a, t, rfl⟩ : ∃ a t, string = a :: t := by
    cases string with
    | nil => exact absurd rfl hne
    | cons a t => exact ⟨a, t, rfl⟩
  rw [write_wide_all.eq_def]
  simp [h, he]

/-- Core convergence argument for the console write loop over a primitive
that consumes at least one and at most all of the passed units per call:
with fuel at least the unit count, the loop succeeds and the transferred
log extends by exactly the input, in order. -/
theorem write_wide_all_consuming (fuel : Nat) : ∀ {σ : Type}
    (f : List Nat → σ → Nat × σ),
    (∀ string s, string ≠ [] →
      1 ≤ (f string s).1 ∧ (f string s).1 ≤ string.length) →
    ∀ (string : List Nat) (s : σ) (log : List Nat), string.length ≤ fuel →
    ∃ s2, write_wide_all (consumingPrim f) fuel (s, log) string =
      some (Except.ok (), (s2, log ++ string)) := by
  induction fuel with
  | zero =>
    intro σ f hf string s log hfuel
    have hs : string = [] := by
      cases string with
      | nil => rfl
      | cons a t => simp at hfuel
    subst hs
    exact ⟨s, by simp [write_wide_all_nil]⟩
  | succ fuel ih =>
    intro σ f hf string s log hfuel
    cases string with
    | nil => exact ⟨s, by simp [write_wide_all_nil]⟩
    | cons a t =>
      obtain ⟨hpos, hlen⟩ := hf (a :: t) s (by simp)
      rw [write_wide_all_ok_step (consumingPrim f) fuel (s, log)
        ((f (a :: t) s).2, log ++ (a :: t).take (f (a :: t) s).1) (a :: t)
        (f (a :: t) s).1 (by simp) rfl (by omega)]
      obtain ⟨s2, h2⟩ := ih f hf ((a :: t).drop (f (a :: t) s).1)
        (f (a :: t) s).2 (log ++ (a :: t).take (f (a :: t) s).1)
        (by simp only [List.length_drop, List.length_cons] at hfuel hlen ⊢; omega)
      refine ⟨s2, ?_⟩
      rw [h2, List.append_assoc, List.take_append_drop]

/-! ### The claims -/

/-- Claim C1: for every byte sequence `b` (valid UTF-8 or not), calling
`write_lossy` with `b` on a destination for which no console capability is
obtained writes exactly the bytes of `b`, unmodified, through the ordinary
byte-write entry point (`write_all`), and returns that entry point's
outcome. -/
theorem write_lossy_non_console_exact {κ R : Type} (b : List Nat)
    (console_write : κ → List Nat → R) (write_all : List Nat → R) :
    write_lossy (none : Option κ) console_write write_all (byteSliceValue b) =
      write_all b := rfl

/-- Claim C2: for every value carrying a wide view, `write_lossy` on a
destination for which a console capability is obtained delegates entirely
to the console writer with that wide view and returns its outcome, so the
console writer receives the original wide representation with no lossy
substitution. -/
theorem write_lossy_console_wide_delegates {κ R : Type} (value : OutputValue)
    (wide : List Nat) (h : value.to_wide = some wide) (console : κ)
    (console_write : κ → List Nat → R) (write_all : List Nat → R) :
    write_lossy (some console) console_write write_all value =
      console_write console wide := by
  simp [write_lossy, h]

theorem write_lossy_console_wide_delegates_witness :
    write_lossy (some 0) (fun console string => (console, string))
      (fun string => (1, string)) (osStrWinValue [68]) = ((0 : Nat), [68]) :=
  write_lossy_console_wide_delegates (osStrWinValue [68]) [68] rfl 0
    (fun console string => (console, string)) (fun string => (1, string))

/-- Claim C3: for every value without a wide view whose byte view is the
raw bytes `b` (in particular every plain byte buffer), `write_lossy` on a
destination with a console capability writes exactly the UTF-8
lossy-decode-then-reencode of `b` through the byte-write entry point, and
that output differs from `b` if and only if `b` is not valid UTF-8. -/
theorem write_lossy_console_no_wide_lossy {κ R : Type} (value : OutputValue)
    (b : List Nat) (hw : value.to_wide = none)
    (hb : value.to_bytes = ByteStrInner.bytes b) (console : κ)
    (console_write : κ → List Nat → R) (write_all : List Nat → R) :
    write_lossy (some console) console_write write_all value =
      write_all (from_utf8_lossy b) ∧
    (from_utf8_lossy b = b ↔ is_utf8 b = true) :=
  ⟨by simp [write_lossy, hw, hb], from_utf8_lossy_eq_self_iff b⟩

theorem write_lossy_console_no_wide_lossy_witness :
    write_lossy (some ()) (fun _ string => string) (fun string => string)
      (byteSliceValue [0xF1, 0x66, 0x6F, 0x80, 0x6F]) =
      from_utf8_lossy [0xF1, 0x66, 0x6F, 0x80, 0x6F] ∧
    (from_utf8_lossy [0xF1, 0x66, 0x6F, 0x80, 0x6F] =
        [0xF1, 0x66, 0x6F, 0x80, 0x6F] ↔
      is_utf8 [0xF1, 0x66, 0x6F, 0x80, 0x6F] = true) :=
  write_lossy_console_no_wide_lossy
    (byteSliceValue [0xF1, 0x66, 0x6F, 0x80, 0x6F])
    [0xF1, 0x66, 0x6F, 0x80, 0x6F] rfl rfl ()
    (fun _ string => string) (fun string => string)

/-- Claim C4: for every code-unit sequence and every console write
primitive that consumes at least one and at most `k` units per call (for
any `k ≥ 1`, never more than the passed suffix), the `write_wide_all`
loop — given fuel at least the unit count — terminates successfully,
advances its cursor by exactly the count each call reports, and transfers
all units in order with no duplication or omission (the transfer log ends
as exactly the input sequence). -/
theorem write_wide_all_partial_write_converges {σ : Type} (k : Nat)
    (f : List Nat → σ → Nat × σ) (hk : 1 ≤ k)
    (hf : ∀ string s, string ≠ [] →
      1 ≤ (f string s).1 ∧ (f string s).1 ≤ k ∧ (f string s).1 ≤ string.length)
    (string : List Nat) (s : σ) (log : List Nat) (fuel : Nat)
    (hfuel : string.length ≤ fuel) :
    ∃ s2, write_wide_all (consumingPrim f) fuel (s, log) string =
      some (Except.ok (), (s2, log ++ string)) :=
  write_wide_all_consuming fuel f
    (fun string s h => ⟨(hf string s h).1, (hf string s h).2.2⟩)
    string s log hfuel

theorem write_wide_all_partial_write_converges_witness :
    ∃ s2, write_wide_all
        (consumingPrim (fun string (s : Unit) => (min 2 string.length, s)))
        3 ((), []) [5, 6, 7] = some (Except.ok (), (s2, [5, 6, 7])) :=
  write_wide_all_partial_write_converges 2
    (fun string s => (min 2 string.length, s)) (by omega)
    (fun string s h => by
      cases string with
      | nil => exact absurd rfl h
      | cons a t => refine ⟨?_, ?_, ?_⟩ <;> simp)
    [5, 6, 7] () [] 3 (by simp)

/-- Claim C5: if a console write primitive call succeeds but consumes zero
units while the remaining buffer is non-empty, `write_wide_all` terminates
immediately (with any further fuel available) with the
write-returned-zero-progress error, a kind distinct from both the
interrupted classification and every OS-reported error code. -/
theorem write_wide_all_zero_progress_terminates {σ : Type}
    (prim : List Nat → σ → Except ErrorKind Nat × σ) (s s2 : σ)
    (string : List Nat) (fuel : Nat) (hne : string ≠ [])
    (h : prim string s = (Except.ok 0, s2)) :
    write_wide_all prim (fuel + 1) s string =
      some (Except.error ErrorKind.writeZero, s2) ∧
    ErrorKind.writeZero ≠ ErrorKind.interrupted ∧
    ∀ code, ErrorKind.writeZero ≠ ErrorKind.other code :=
  ⟨write_wide_all_zero_step prim fuel s s2 string hne h, by simp,
    fun code => by simp⟩

theorem write_wide_all_zero_progress_terminates_witness :
    write_wide_all (fun (_ : List Nat) (s : Unit) => (Except.ok 0, s))
        1 () [1] = some (Except.error ErrorKind.writeZero, ()) ∧
    ErrorKind.writeZero ≠ ErrorKind.interrupted ∧
    ∀ code, ErrorKind.writeZero ≠ ErrorKind.other code :=
  write_wide_all_zero_progress_terminates
    (fun _ s => (Except.ok 0, s)) () () [1] 0 (by simp) rfl

/-- Claim C6: an `Interrupted` primitive failure makes `write_wide_all`
retry the same unwritten suffix without surfacing the error; in
particular, with a primitive that fails with `Interrupted` exactly once
and then succeeds, the whole write succeeds with the full buffer
transferred. -/
theorem write_wide_all_interrupted_retries :
    (∀ (σ : Type) (prim : List Nat → σ → Except ErrorKind Nat × σ)
      (fuel : Nat) (s s2 : σ) (string : List Nat), string ≠ [] →
      prim string s = (Except.error ErrorKind.interrupted, s2) →
      write_wide_all prim (fuel + 1) s string =
        write_wide_all prim fuel s2 string) ∧
    (∀ (string : List Nat) (fuel : Nat), string ≠ [] →
      write_wide_all interruptOncePrim (fuel + 2) (false, []) string =
        some (Except.ok (), (true, string))) := by
  constructor
  · intro σ prim fuel s s2 string hne h
    exact write_wide_all_interrupted_step prim fuel s s2 string hne h
  · intro string fuel hne
    obtain ⟨a, t, rfl⟩ : ∃ a t, string = a :: t := by
      cases string with
      | nil => exact absurd rfl hne
      | cons a t => exact ⟨a, t, rfl⟩
    rw [write_wide_all_interrupted_step interruptOncePrim (fuel + 1)
      (false, []) (true, []) (a :: t) (by simp) rfl]
    rw [write_wide_all_ok_step interruptOncePrim fuel (true, [])
      (true, a :: t) (a :: t) (a :: t).length (by simp) rfl (by simp)]
    rw [List.drop_length]
    exact write_wide_all_nil _ _ _

theorem write_wide_all_interrupted_retries_witness :
    write_wide_all interruptOncePrim 2 (false, []) [7] =
      write_wide_all interruptOncePrim 1 (true, []) [7] ∧
    write_wide_all interruptOncePrim 2 (false, []) [7] =
      some (Except.ok (), (true, [7])) :=
  ⟨write_wide_all_interrupted_retries.1 (Bool × List Nat) interruptOncePrim 1
      (false, []) (true, []) [7] (by simp) rfl,
    write_wide_all_interrupted_retries.2 [7] 0 (by simp)⟩

/-- Counterexample to claim C7 as stated: the caller-visible outcome of
`write_wide_all` does not carry the number of units transferred before the
error.  Two runs on the buffer `[1, 2, 3]` — one whose primitive fails
with OS error code 5 at once (zero units transferred), one whose primitive
transfers two units and then fails with the same code — return equal
outcomes, while the units actually transferred (the device logs) differ:
`[]` versus `[1, 2]`. -/
theorem write_wide_all_outcome_lacks_progress_count :
    (write_wide_all alwaysErrPrim 5 [] [1, 2, 3]).map Prod.fst =
      (write_wide_all consumeTwoThenErrPrim 5 (0, []) [1, 2, 3]).map Prod.fst ∧
    write_wide_all alwaysErrPrim 5 [] [1, 2, 3] =
      some (Except.error (ErrorKind.other 5), []) ∧
    write_wide_all consumeTwoThenErrPrim 5 (0, []) [1, 2, 3] =
      some (Except.error (ErrorKind.other 5), (2, [1, 2])) :=
  ⟨rfl, rfl, rfl⟩

/-- Claim C7 (amended): any console write primitive failure other than the
interrupted classification terminates the `write_wide_all` loop and is
propagated to the caller unchanged, carrying the underlying OS error
code/kind; the number of units transferred before the error is reflected
only in the device state, not in the returned outcome. -/
theorem write_wide_all_error_propagates {σ : Type}
    (prim : List Nat → σ → Except ErrorKind Nat × σ) (fuel : Nat) (s s2 : σ)
    (string : List Nat) (error : ErrorKind) (hne : string ≠ [])
    (h : prim string s = (Except.error error, s2))
    (he : error ≠ ErrorKind.interrupted) :
    write_wide_all prim (fuel + 1) s string = some (Except.error error, s2) :=
  write_wide_all_error_step prim fuel s s2 string error hne h he

theorem write_wide_all_error_propagates_witness :
    write_wide_all alwaysErrPrim 1 [] [9] =
      some (Except.error (ErrorKind.other 5), []) :=
  write_wide_all_error_propagates alwaysErrPrim 0 [] [] [9]
    (ErrorKind.other 5) (by simp) rfl (by simp)

/-- Claim C8: console detection rejects a null or invalid raw handle
before issuing the OS console-mode query — the result is `none` for every
possible behaviour of the query, so the query is never consulted for such
a handle. -/
theorem from_handle_rejects_invalid_before_query
    (q q2 : Int → Option Nat) (raw_handle : Int)
    (h : raw_handle = 0 ∨ raw_handle = INVALID_HANDLE_VALUE) :
    from_handle q raw_handle = none ∧
    from_handle q raw_handle = from_handle q2 raw_handle := by
  rcases h with h | h <;> subst h <;> exact ⟨rfl, rfl⟩

theorem from_handle_rejects_invalid_before_query_witness :
    from_handle (fun _ => some 7) 0 = none ∧
    from_handle (fun _ => some 7) 0 = from_handle (fun _ => none) 0 :=
  from_handle_rejects_invalid_before_query (fun _ => some 7) (fun _ => none)
    0 (Or.inl rfl)

/-- Claim C9: on Windows, writing an OS-native string with `write_lossy`
to a non-console destination writes the `to_string_lossy` re-encoding of
its wide content, not the original data: the unpaired surrogate `D800` and
the replacement character `FFFD` — two distinct originals — both produce
the replacement-character bytes, because `OsStr`'s byte view is itself
built by a lossy conversion. -/
theorem write_lossy_os_str_non_console_is_lossy :
    (∀ (κ R : Type) (w : List Nat) (console_write : κ → List Nat → R)
      (write_all : List Nat → R),
      write_lossy (none : Option κ) console_write write_all (osStrWinValue w) =
        write_all (from_utf16_lossy w)) ∧
    from_utf16_lossy [0xD800] = [0xEF, 0xBF, 0xBD] ∧
    from_utf16_lossy [0xD800] = from_utf16_lossy [0xFFFD] ∧
    [0xD800] ≠ ([0xFFFD] : List Nat) :=
  ⟨fun κ R w console_write write_all => rfl, rfl, rfl, by simp⟩

/-- Claim C10: for every value, `write_lossy` to a `Vec<u8>` writer takes
the byte path: the console probe of `Vec<u8>` is hardwired to `none`, so
the exact (non-lossy) byte view is written through the ordinary byte-write
entry point and the console writer is never involved, for every capability
type and every console writer. -/
theorem write_lossy_vec_u8_never_console (κ R : Type) (value : OutputValue)
    (console_write : κ → List Nat → R) (write_all : List Nat → R) :
    write_lossy (vec_u8_to_console κ) console_write write_all value =
      write_all (exact_bytes value) := by
  cases h : value.to_bytes with
  | bytes string => simp [write_lossy, vec_u8_to_console, exact_bytes, h]
  | str string => simp [write_lossy, vec_u8_to_console, exact_bytes, h]
